import Mathlib

/-!
# Kibana copy-object resource

A shallow embedding of `kb/resource_kibana_copy_object.go`: the four lifecycle
hooks of the `kibana_copy_object` resource (create, read, update, delete), the
helper `buildCopyObjects` and the function `copyObject` that issues the single
`CopySavedObjects` call.

The Go code mutates a `*schema.ResourceData` and talks to a `*kibana.Client`.
Here both are explicit: a `World` holds the resource data and the log of the
calls made on the client, and every hook maps a `World` to a `World` and the
diagnostics it returns.  Logging (`log.Infof`, `fmt.Printf`) has no effect on
either and is left out.
-/

namespace Kb

/-! ## Go values -/

/-- Go `error`: `none` is `nil`, `some msg` is an error whose `Error()` is `msg`. -/
abbrev GoError := Option String

/-- Go `map[string]string`, as an association list with at most one entry per key. -/
abbrev StrMap := List (String × String)

/-- Map read `m[k]`: the zero value `""` when the key is missing. -/
def StrMap.get (m : StrMap) (k : String) : String :=
  (m.lookup k).getD ""

/-- Map write `m[k] = v`: replaces the entry of `k`. -/
def StrMap.set (m : StrMap) (k v : String) : StrMap :=
  (k, v) :: m.filter (fun p => p.1 != k)

/-! ## The plugin SDK: diagnostics, sets, resource data -/

/-- One `diag.Diagnostic` of severity error; `summary` is the error's message. -/
structure Diagnostic where
  summary : String
deriving DecidableEq, Repr

/-- The type `diag.Diagnostics`: the empty list is the `nil` a hook returns on success. -/
abbrev Diagnostics := List Diagnostic

/-- The function `diag.FromErr` on a non-nil error: one diagnostic carrying its message. -/
def diagFromErr (err : String) : Diagnostics := [⟨err⟩]

/-- A `*schema.Set`: the items stored under their hash code.  The SDK keeps a
map from code to item and `List()` returns the items in the order of the sorted
codes; here the map is the association list kept in strictly increasing code
order, and a code is the rank of the SDK key in that order.  The hash function
is not fixed: every statement below holds for all hash functions, hence for
every order in which a set is listed. -/
abbrev SchemaSet (α : Type) := List (Nat × α)

/-- Map insertion of `Set.add`: an item whose code is already present is not
stored again; otherwise it is stored under its code. -/
def SchemaSet.insertCode {α : Type} (code : Nat) (item : α) : SchemaSet α → SchemaSet α
  | [] => [(code, item)]
  | (c, x) :: rest =>
      if code < c then (code, item) :: (c, x) :: rest
      else if code = c then (c, x) :: rest
      else (c, x) :: SchemaSet.insertCode code item rest

/-- The method `Set.Add` for a set whose hash function is `F`. -/
def SchemaSet.Add {α : Type} (F : α → Nat) (s : SchemaSet α) (item : α) : SchemaSet α :=
  SchemaSet.insertCode (F item) item s

/-- The method `Set.List()`: the items in code order. -/
def SchemaSet.List {α : Type} (s : SchemaSet α) : List α :=
  s.map Prod.snd

/-- The function `schema.NewSet`: the set holding the given items. -/
def NewSet {α : Type} (F : α → Nat) (items : List α) : SchemaSet α :=
  items.foldl (SchemaSet.Add F) []

/-- A set as the SDK builds it: codes strictly increasing, every item stored
under its own hash code. -/
def SchemaSet.WF {α : Type} (F : α → Nat) (s : SchemaSet α) : Prop :=
  (s.map Prod.fst).Pairwise (· < ·) ∧ ∀ p ∈ s, p.1 = F p.2

/-- One `object` block of the configuration: the schema makes both fields
required strings. -/
structure ObjectBlock where
  id : String
  type : String
deriving DecidableEq, Repr

/-- The `*schema.ResourceData` of a `kibana_copy_object` resource: the tracking
identifier (`d.Id()`) and one field per schema attribute (`d.Get(key)`). -/
structure ResourceData where
  id : String
  name : String
  source_space : String
  target_spaces : SchemaSet String
  object : SchemaSet ObjectBlock
  include_reference : Bool
  overwrite : Bool
  create_new_copies : Bool
  force_update : Bool
deriving DecidableEq, Repr

/-- The values the resource passes to `d.Set`. -/
inductive Value where
  | str (s : String)
  | bool (b : Bool)
  | strs (l : List String)
  | maps (l : List StrMap)
deriving DecidableEq, Repr

/-! ## The Kibana client -/

/-- The struct `kbapi.KibanaSpaceObjectParameter`. -/
structure KibanaSpaceObjectParameter where
  ID : String
  Type_ : String
deriving DecidableEq, Repr

/-- The struct `kbapi.KibanaSpaceCopySavedObjectParameter`. -/
structure KibanaSpaceCopySavedObjectParameter where
  Spaces : List String
  Objects : List KibanaSpaceObjectParameter
  IncludeReferences : Bool
  Overwrite : Bool
  CreateNewCopies : Bool
deriving DecidableEq, Repr

/-- One invocation of `client.API.KibanaSpaces.CopySavedObjects(parameter, sourceSpace)`. -/
structure CopyCall where
  parameter : KibanaSpaceCopySavedObjectParameter
  sourceSpace : String
deriving DecidableEq, Repr

/-- What surrounds the resource: the remote client's answer to a call (which may
depend on the calls made before), the outcome of a state write on a key
(`none`: the write goes through), and the hash functions of the two sets. -/
structure Provider where
  copySavedObjects : List CopyCall → KibanaSpaceCopySavedObjectParameter → String → GoError
  setErr : String → GoError
  hashString : String → Nat
  hashResource : ObjectBlock → Nat

/-- The resource data together with the log of `CopySavedObjects` calls. -/
structure World where
  d : ResourceData
  calls : List CopyCall
deriving DecidableEq, Repr

/-- The block the SDK stores for one element of the `object` attribute: its
`id` and `type` entries. -/
def blockOfMap (m : StrMap) : ObjectBlock :=
  ⟨m.get "id", m.get "type"⟩

/-- The method `d.Set(key, value)`: a failing write returns its error and
leaves the data as it was; a write of a value of the wrong kind, or on a key
outside the schema, is an error too. -/
def ResourceData.Set (env : Provider) (d : ResourceData) (key : String) (v : Value) :
    ResourceData × GoError :=
  match env.setErr key with
  | some err => (d, some err)
  | none =>
    if key = "name" then
      match v with
      | .str s => ({ d with name := s }, none)
      | _ => (d, some "name: invalid value")
    else if key = "source_space" then
      match v with
      | .str s => ({ d with source_space := s }, none)
      | _ => (d, some "source_space: invalid value")
    else if key = "target_spaces" then
      match v with
      | .strs l => ({ d with target_spaces := NewSet env.hashString l }, none)
      | _ => (d, some "target_spaces: invalid value")
    else if key = "object" then
      match v with
      | .maps l => ({ d with object := NewSet env.hashResource (l.map blockOfMap) }, none)
      | _ => (d, some "object: invalid value")
    else if key = "include_reference" then
      match v with
      | .bool b => ({ d with include_reference := b }, none)
      | _ => (d, some "include_reference: invalid value")
    else if key = "overwrite" then
      match v with
      | .bool b => ({ d with overwrite := b }, none)
      | _ => (d, some "overwrite: invalid value")
    else if key = "create_new_copies" then
      match v with
      | .bool b => ({ d with create_new_copies := b }, none)
      | _ => (d, some "create_new_copies: invalid value")
    else if key = "force_update" then
      match v with
      | .bool b => ({ d with force_update := b }, none)
      | _ => (d, some "force_update: invalid value")
    else (d, some "invalid key")

/-- The method `d.SetId`. -/
def ResourceData.SetId (d : ResourceData) (v : String) : ResourceData :=
  { d with id := v }

/-! ## The resource -/

/-- Modelled from the spec: `convertArrayInterfaceToArrayString` is defined in
another file of the package; it turns the `[]interface{}` of a string set into
the `[]string` of the same strings, in the same order. -/
def convertArrayInterfaceToArrayString (raws : List String) : List String :=
  raws

/-- Build list of object to export (`buildCopyObjects`): one map per raw block,
with its `type` and `id` entries, at the same index. -/
def buildCopyObjects (raws : List ObjectBlock) : List StrMap :=
  raws.map fun m =>
    let object : StrMap := []
    let object := object.set "type" m.type
    let object := object.set "id" m.id
    object

/-- Copy objects in Kibana (`copyObject`): assembles the parameters from the
resource data, makes the call and returns its error. -/
def copyObject (env : Provider) (w : World) : World × GoError :=
  let d := w.d
  let sourceSpace := d.source_space
  let targetSpaces := convertArrayInterfaceToArrayString d.target_spaces.List
  let objects := buildCopyObjects d.object.List
  let includeReference := d.include_reference
  let overwrite := d.overwrite
  let createNewCopies := d.create_new_copies
  let objectsParameter : List KibanaSpaceObjectParameter :=
    objects.foldl (fun acc object => acc ++ [⟨object.get "id", object.get "type"⟩]) []
  let parameter : KibanaSpaceCopySavedObjectParameter :=
    { Spaces := targetSpaces
      Objects := objectsParameter
      IncludeReferences := includeReference
      Overwrite := overwrite
      CreateNewCopies := createNewCopies }
  let err := env.copySavedObjects w.calls parameter sourceSpace
  let w := { w with calls := w.calls ++ [⟨parameter, sourceSpace⟩] }
  match err with
  | some e => (w, some e)
  | none => (w, none)

/-- Read object on kibana (`resourceKibanaCopyObjectRead`): writes every field
back from the values the resource data already holds, the name from the
identifier and `force_update` as false, stopping at the first failing write. -/
def resourceKibanaCopyObjectRead (env : Provider) (w : World) : World × Diagnostics :=
  let d := w.d
  let id := d.id
  let sourceSpace := d.source_space
  let targetSpaces := convertArrayInterfaceToArrayString d.target_spaces.List
  let objects := buildCopyObjects d.object.List
  let includeReference := d.include_reference
  let overwrite := d.overwrite
  let createNewCopies := d.create_new_copies
  match d.Set env "name" (.str id) with
  | (d, some err) => ({ w with d := d }, diagFromErr err)
  | (d, none) =>
  match d.Set env "source_space" (.str sourceSpace) with
  | (d, some err) => ({ w with d := d }, diagFromErr err)
  | (d, none) =>
  match d.Set env "target_spaces" (.strs targetSpaces) with
  | (d, some err) => ({ w with d := d }, diagFromErr err)
  | (d, none) =>
  match d.Set env "object" (.maps objects) with
  | (d, some err) => ({ w with d := d }, diagFromErr err)
  | (d, none) =>
  match d.Set env "include_reference" (.bool includeReference) with
  | (d, some err) => ({ w with d := d }, diagFromErr err)
  | (d, none) =>
  match d.Set env "overwrite" (.bool overwrite) with
  | (d, some err) => ({ w with d := d }, diagFromErr err)
  | (d, none) =>
  match d.Set env "create_new_copies" (.bool createNewCopies) with
  | (d, some err) => ({ w with d := d }, diagFromErr err)
  | (d, none) =>
  match d.Set env "force_update" (.bool false) with
  | (d, some err) => ({ w with d := d }, diagFromErr err)
  | (d, none) => ({ w with d := d }, [])

/-- Copy objects in Kibana (`resourceKibanaCopyObjectCreate`). -/
def resourceKibanaCopyObjectCreate (env : Provider) (w : World) : World × Diagnostics :=
  let name := w.d.name
  match copyObject env w with
  | (w, some err) => (w, diagFromErr err)
  | (w, none) =>
    let w := { w with d := w.d.SetId name }
    resourceKibanaCopyObjectRead env w

/-- Update existing object in Kibana (`resourceKibanaCopyObjectUpdate`). -/
def resourceKibanaCopyObjectUpdate (env : Provider) (w : World) : World × Diagnostics :=
  match copyObject env w with
  | (w, some err) => (w, diagFromErr err)
  | (w, none) => resourceKibanaCopyObjectRead env w

/-- Delete object in Kibana is not supported, it just removes the object from
state (`resourceKibanaCopyObjectDelete`). -/
def resourceKibanaCopyObjectDelete (_env : Provider) (w : World) : World × Diagnostics :=
  let w := { w with d := w.d.SetId "" }
  (w, [])

/-! ## Specification-side definitions -/

/-- The keys `resourceKibanaCopyObjectRead` writes, in the order it writes them. -/
def readKeys : List String :=
  ["name", "source_space", "target_spaces", "object", "include_reference", "overwrite",
   "create_new_copies", "force_update"]

/-- The resource data a read leaves when every write goes through: the name is
the identifier, both sets are rebuilt from their listings, `force_update` is
false, the other fields are written back unchanged. -/
def readData (env : Provider) (d : ResourceData) : ResourceData :=
  { id := d.id
    name := d.id
    source_space := d.source_space
    target_spaces := NewSet env.hashString d.target_spaces.List
    object := NewSet env.hashResource d.object.List
    include_reference := d.include_reference
    overwrite := d.overwrite
    create_new_copies := d.create_new_copies
    force_update := false }

/-- The resource data after the first `n` writes of a read went through. -/
def readPrefixData (env : Provider) (d : ResourceData) (n : Nat) : ResourceData :=
  { id := d.id
    name := if 1 ≤ n then d.id else d.name
    source_space := d.source_space
    target_spaces := if 3 ≤ n then NewSet env.hashString d.target_spaces.List else d.target_spaces
    object := if 4 ≤ n then NewSet env.hashResource d.object.List else d.object
    include_reference := d.include_reference
    overwrite := d.overwrite
    create_new_copies := d.create_new_copies
    force_update := if 8 ≤ n then false else d.force_update }

/-- The call the specification expects for a configuration: the target spaces
as listed, one (ID, Type) parameter per object in the order listed, the three
flags, and the source space. -/
def specCopyCall (d : ResourceData) : CopyCall :=
  { parameter :=
      { Spaces := d.target_spaces.List
        Objects := d.object.List.map fun o => ⟨o.id, o.type⟩
        IncludeReferences := d.include_reference
        Overwrite := d.overwrite
        CreateNewCopies := d.create_new_copies }
    sourceSpace := d.source_space }

/-- The value `d.Get(key)` holds for a schema key. -/
inductive Attr where
  | str (s : String)
  | bool (b : Bool)
  | strSet (s : SchemaSet String)
  | blockSet (s : SchemaSet ObjectBlock)
  | none
deriving DecidableEq, Repr

/-- The method `d.Get(key)`. -/
def ResourceData.Get (d : ResourceData) (key : String) : Attr :=
  if key = "name" then .str d.name
  else if key = "source_space" then .str d.source_space
  else if key = "target_spaces" then .strSet d.target_spaces
  else if key = "object" then .blockSet d.object
  else if key = "include_reference" then .bool d.include_reference
  else if key = "overwrite" then .bool d.overwrite
  else if key = "create_new_copies" then .bool d.create_new_copies
  else if key = "force_update" then .bool d.force_update
  else .none

/-- The states of the lifecycle: no tracking identifier assigned. -/
def absent (d : ResourceData) : Prop := d.id = ""

/-- The states of the lifecycle: an identifier is assigned and it is the name. -/
def tracked (d : ResourceData) : Prop := d.id ≠ "" ∧ d.id = d.name

/-- A step of the orchestrator after creation: a read, or an update that
carries a configuration.  The data an update works on holds the planned
attribute values of that configuration under the stored identifier. -/
inductive Op where
  | read (env : Provider)
  | update (env : Provider) (cfg : ResourceData)

/-- Runs one step. -/
def Op.run : Op → World → World × Diagnostics
  | .read env, w => resourceKibanaCopyObjectRead env w
  | .update env cfg, w =>
      resourceKibanaCopyObjectUpdate env { w with d := { cfg with id := w.d.id } }

/-- Runs a sequence of steps as long as each one returns no diagnostics. -/
def runOps : List Op → World → Option World
  | [], w => some w
  | op :: ops, w =>
      match op.run w with
      | (w1, []) => runOps ops w1
      | (_, _ :: _) => Option.none

/-- Create followed by read: the read hook run on the state create returned. -/
def createThenRead (env : Provider) (w : World) : World × Diagnostics :=
  resourceKibanaCopyObjectRead env (resourceKibanaCopyObjectCreate env w).1

/-! ## Concrete inputs -/

/-- A provider whose remote call and state writes all go through. -/
def okProvider : Provider :=
  { copySavedObjects := fun _ _ _ => none
    setErr := fun _ => none
    hashString := String.length
    hashResource := fun o => o.id.length + o.type.length }

/-- A provider whose remote call fails with a network error. -/
def downProvider : Provider :=
  { okProvider with copySavedObjects := fun _ _ _ => some "network error" }

/-- A provider whose write of `target_spaces` fails. -/
def writeFailProvider : Provider :=
  { okProvider with setErr := fun k => if k = "target_spaces" then some "write failed" else none }

/-- The configuration of the scenario: copy one dashboard to `staging`, no
identifier assigned yet. -/
def copyDash : ResourceData :=
  { id := ""
    name := "copy-dash"
    source_space := "default"
    target_spaces := [(7, "staging")]
    object := [(15, ⟨"abc123", "dashboard"⟩)]
    include_reference := true
    overwrite := false
    create_new_copies := true
    force_update := false }

/-- The scenario before any call was made. -/
def copyDashWorld : World := ⟨copyDash, []⟩

/-- The scenario once tracked, with `force_update` raised. -/
def copyDashTracked : World := ⟨{ copyDash with id := "copy-dash", force_update := true }, []⟩

/-- The scenario with an empty name. -/
def emptyNameWorld : World := ⟨{ copyDash with name := "" }, []⟩

/-- The scenario held under an identifier that differs from the configured name. -/
def otherIdWorld : World := ⟨{ copyDash with id := "old-id" }, []⟩

/-- A configuration for an update of the scenario: another name, another
target space, overwrite on. -/
def prodConfig : ResourceData :=
  { copyDash with name := "renamed", target_spaces := [(4, "prod")], overwrite := true }

/-- The steps of the scenario after creation: a read, an update carrying
`prodConfig`, a read. -/
def copyDashOps : List Op :=
  [.read okProvider, .update okProvider prodConfig, .read okProvider]

/-! ## Auxiliary facts -/

theorem foldl_snoc_eq_map {α β : Type} (f : α → β) (l : List α) (acc : List β) :
    l.foldl (fun acc x => acc ++ [f x]) acc = acc ++ l.map f := by
  induction l generalizing acc with
  | nil => simp
  | cons a t ih => simp [ih]

theorem get_id_build (i t : String) :
    StrMap.get (StrMap.set (StrMap.set [] "type" t) "id" i) "id" = i := by
  simp [StrMap.get, StrMap.set, List.lookup]

theorem get_type_build (i t : String) :
    StrMap.get (StrMap.set (StrMap.set [] "type" t) "id" i) "type" = t := by
  simp [StrMap.get, StrMap.set, List.lookup]

theorem blockOfMap_buildCopyObjects (raws : List ObjectBlock) :
    (buildCopyObjects raws).map blockOfMap = raws := by
  simp [buildCopyObjects, blockOfMap, get_id_build, get_type_build, Function.comp_def]

theorem insertCode_append_last {α : Type} (code : Nat) (item : α) (s : SchemaSet α)
    (h : ∀ p ∈ s, p.1 < code) : SchemaSet.insertCode code item s = s ++ [(code, item)] := by
  induction s with
  | nil => rfl
  | cons p rest ih =>
    obtain ⟨c, x⟩ := p
    have hc : c < code := h (c, x) (by simp)
    have h1 : ¬ code < c := by omega
    have h2 : ¬ code = c := by omega
    simp [SchemaSet.insertCode, h1, h2]
    exact ih (fun p hp => h p (by simp [hp]))

theorem foldl_Add_of_WF {α : Type} (F : α → Nat) (acc rest : SchemaSet α)
    (h : SchemaSet.WF F (acc ++ rest)) :
    (rest.map Prod.snd).foldl (SchemaSet.Add F) acc = acc ++ rest := by
  induction rest generalizing acc with
  | nil => simp
  | cons p rest ih =>
    obtain ⟨c, x⟩ := p
    have hc : c = F x := h.2 (c, x) (by simp)
    have hlt : ∀ q ∈ acc, q.1 < c := by
      intro q hq
      have := h.1
      simp [List.pairwise_append] at this
      exact this.2.2 q.1 q.2 hq |>.1
    simp only [List.map_cons, List.foldl_cons]
    have hadd : SchemaSet.Add F acc x = acc ++ [(c, x)] := by
      unfold SchemaSet.Add
      rw [← hc]
      exact insertCode_append_last c x acc hlt
    rw [hadd, ih]
    · simp
    · simpa using h

theorem NewSet_List_of_WF {α : Type} (F : α → Nat) (s : SchemaSet α) (h : SchemaSet.WF F s) :
    NewSet F s.List = s := by
  have := foldl_Add_of_WF F [] s (by simpa using h)
  simpa [NewSet, SchemaSet.List] using this

theorem mem_insertCode {α : Type} (code : Nat) (item : α) (s : SchemaSet α) (q : Nat × α)
    (hq : q ∈ SchemaSet.insertCode code item s) : q = (code, item) ∨ q ∈ s := by
  induction s with
  | nil => simpa [SchemaSet.insertCode] using hq
  | cons p rest ih =>
    obtain ⟨c, x⟩ := p
    unfold SchemaSet.insertCode at hq
    split_ifs at hq with h1 h2
    · simpa using hq
    · exact Or.inr hq
    · rcases List.mem_cons.1 hq with h | h
      · exact Or.inr (by simp [h])
      · rcases ih h with h | h
        · exact Or.inl h
        · exact Or.inr (List.mem_cons_of_mem _ h)

theorem WF_insertCode {α : Type} (F : α → Nat) (item : α) (s : SchemaSet α)
    (h : SchemaSet.WF F s) : SchemaSet.WF F (SchemaSet.insertCode (F item) item s) := by
  induction s with
  | nil => simp [SchemaSet.insertCode, SchemaSet.WF]
  | cons p rest ih =>
    obtain ⟨c, x⟩ := p
    have hrest : SchemaSet.WF F rest := by
      refine ⟨?_, fun q hq => h.2 q (List.mem_cons_of_mem _ hq)⟩
      have := h.1
      simp only [List.map_cons, List.pairwise_cons] at this
      exact this.2
    have hhead : ∀ q ∈ rest, c < q.1 := by
      intro q hq
      have := h.1
      simp only [List.map_cons, List.pairwise_cons] at this
      exact this.1 q.1 (List.mem_map_of_mem Prod.fst hq)
    unfold SchemaSet.insertCode
    split_ifs with h1 h2
    · refine ⟨?_, ?_⟩
      · simp only [List.map_cons, List.pairwise_cons]
        refine ⟨?_, ?_⟩
        · intro k hk
          rcases List.mem_cons.1 hk with hk | hk
          · omega
          · obtain ⟨q, hq, rfl⟩ := List.mem_map.1 hk
            have := hhead q hq
            omega
        · have := h.1
          simpa only [List.map_cons, List.pairwise_cons] using this
      · intro q hq
        rcases List.mem_cons.1 hq with hq | hq
        · simp [hq]
        · exact h.2 q hq
    · exact h
    · have ih2 := ih hrest
      refine ⟨?_, ?_⟩
      · simp only [List.map_cons, List.pairwise_cons]
        refine ⟨?_, ih2.1⟩
        intro k hk
        obtain ⟨q, hq, rfl⟩ := List.mem_map.1 hk
        rcases mem_insertCode _ _ _ _ hq with hq | hq
        · simp only [hq]
          omega
        · exact hhead q hq
      · intro q hq
        rcases List.mem_cons.1 hq with hq | hq
        · exact h.2 q (by simp [hq])
        · exact ih2.2 q hq

theorem WF_foldl_Add {α : Type} (F : α → Nat) (items : List α) (s : SchemaSet α)
    (h : SchemaSet.WF F s) : SchemaSet.WF F (items.foldl (SchemaSet.Add F) s) := by
  induction items generalizing s with
  | nil => simpa using h
  | cons a t ih => exact ih _ (WF_insertCode F a s h)

theorem WF_NewSet {α : Type} (F : α → Nat) (items : List α) :
    SchemaSet.WF F (NewSet F items) :=
  WF_foldl_Add F items [] (by simp [SchemaSet.WF])

theorem NewSet_idem {α : Type} (F : α → Nat) (items : List α) :
    NewSet F (NewSet F items).List = NewSet F items :=
  NewSet_List_of_WF F _ (WF_NewSet F items)

theorem read_of_writes_ok (env : Provider) (w : World) (h : ∀ k ∈ readKeys, env.setErr k = none) :
    resourceKibanaCopyObjectRead env w = ({ w with d := readData env w.d }, []) := by
  simp only [readKeys, List.mem_cons, List.mem_singleton, forall_eq_or_imp, forall_eq,
    List.not_mem_nil, false_imp_iff, implies_true, and_true] at h
  obtain ⟨h1, h2, h3, h4, h5, h6, h7, h8⟩ := h
  simp [resourceKibanaCopyObjectRead, ResourceData.Set, h1, h2, h3, h4, h5, h6, h7, h8,
    readData, convertArrayInterfaceToArrayString, blockOfMap_buildCopyObjects]

theorem copyObject_eq (env : Provider) (w : World) :
    copyObject env w =
      ({ w with calls := w.calls ++ [specCopyCall w.d] },
        env.copySavedObjects w.calls (specCopyCall w.d).parameter (specCopyCall w.d).sourceSpace) := by
  have hobj : (buildCopyObjects w.d.object.List).foldl
      (fun acc (object : StrMap) =>
        acc ++ [(⟨object.get "id", object.get "type"⟩ : KibanaSpaceObjectParameter)]) []
      = w.d.object.List.map fun o => ⟨o.id, o.type⟩ := by
    rw [foldl_snoc_eq_map]
    simp [buildCopyObjects, get_id_build, get_type_build, Function.comp_def]
  unfold copyObject
  simp only [hobj, convertArrayInterfaceToArrayString, specCopyCall]
  cases env.copySavedObjects w.calls _ w.d.source_space <;> rfl

theorem read_fail_at (env : Provider) (w : World) (i : Nat) (k e : String)
    (hk : readKeys[i]? = some k) (hpre : ∀ j ∈ readKeys.take i, env.setErr j = none)
    (he : env.setErr k = some e) :
    resourceKibanaCopyObjectRead env w =
      ({ w with d := readPrefixData env w.d i }, diagFromErr e) := by
  have hi : i < 8 := by
    by_contra hcon
    have : readKeys[i]? = none := List.getElem?_eq_none (by simp [readKeys]; omega)
    simp [this] at hk
  obtain ⟨d, calls⟩ := w
  obtain ⟨id, name, ss, ts, ob, ir, ov, cn, fu⟩ := d
  interval_cases i <;>
    simp [readKeys] at hk hpre <;>
    subst hk <;>
    simp [resourceKibanaCopyObjectRead, ResourceData.Set, hpre, he, readPrefixData,
      convertArrayInterfaceToArrayString, blockOfMap_buildCopyObjects]

theorem first_fail (f : String → GoError) (ks : List String) :
    (∀ k ∈ ks, f k = none) ∨
      ∃ i k e, ks[i]? = some k ∧ (∀ j ∈ ks.take i, f j = none) ∧ f k = some e := by
  induction ks with
  | nil => exact Or.inl (by simp)
  | cons a t ih =>
    cases ha : f a with
    | some e => exact Or.inr ⟨0, a, e, by simp, by simp, ha⟩
    | none =>
      rcases ih with h | ⟨i, k, e, hk, hpre, he⟩
      · exact Or.inl (by simpa [ha] using h)
      · exact Or.inr ⟨i + 1, k, e, by simpa using hk, by simpa [ha] using hpre, he⟩

theorem writes_ok_of_read_ok (env : Provider) (w : World)
    (h : (resourceKibanaCopyObjectRead env w).2 = []) : ∀ k ∈ readKeys, env.setErr k = none := by
  rcases first_fail env.setErr readKeys with hall | ⟨i, k, e, hk, hpre, he⟩
  · exact hall
  · rw [read_fail_at env w i k e hk hpre he] at h
    simp [diagFromErr] at h

theorem read_calls (env : Provider) (w : World) :
    (resourceKibanaCopyObjectRead env w).1.calls = w.calls := by
  rcases first_fail env.setErr readKeys with hall | ⟨i, k, e, hk, hpre, he⟩
  · rw [read_of_writes_ok env w hall]
  · rw [read_fail_at env w i k e hk hpre he]

theorem read_id (env : Provider) (w : World) :
    (resourceKibanaCopyObjectRead env w).1.d.id = w.d.id := by
  rcases first_fail env.setErr readKeys with hall | ⟨i, k, e, hk, hpre, he⟩
  · rw [read_of_writes_ok env w hall]; rfl
  · rw [read_fail_at env w i k e hk hpre he]; rfl

theorem create_eq (env : Provider) (w : World) :
    resourceKibanaCopyObjectCreate env w =
      match env.copySavedObjects w.calls (specCopyCall w.d).parameter
          (specCopyCall w.d).sourceSpace with
      | some e => ({ w with calls := w.calls ++ [specCopyCall w.d] }, diagFromErr e)
      | none =>
          resourceKibanaCopyObjectRead env
            { d := { w.d with id := w.d.name }, calls := w.calls ++ [specCopyCall w.d] } := by
  unfold resourceKibanaCopyObjectCreate
  rw [copyObject_eq]
  cases env.copySavedObjects w.calls (specCopyCall w.d).parameter (specCopyCall w.d).sourceSpace <;>
    rfl

theorem update_eq (env : Provider) (w : World) :
    resourceKibanaCopyObjectUpdate env w =
      match env.copySavedObjects w.calls (specCopyCall w.d).parameter
          (specCopyCall w.d).sourceSpace with
      | some e => ({ w with calls := w.calls ++ [specCopyCall w.d] }, diagFromErr e)
      | none =>
          resourceKibanaCopyObjectRead env
            { d := w.d, calls := w.calls ++ [specCopyCall w.d] } := by
  unfold resourceKibanaCopyObjectUpdate
  rw [copyObject_eq]
  cases env.copySavedObjects w.calls (specCopyCall w.d).parameter (specCopyCall w.d).sourceSpace <;>
    rfl

theorem create_calls (env : Provider) (w : World) :
    (resourceKibanaCopyObjectCreate env w).1.calls = w.calls ++ [specCopyCall w.d] := by
  rw [create_eq]
  cases env.copySavedObjects w.calls (specCopyCall w.d).parameter (specCopyCall w.d).sourceSpace
  · simp [read_calls]
  · rfl

theorem update_calls (env : Provider) (w : World) :
    (resourceKibanaCopyObjectUpdate env w).1.calls = w.calls ++ [specCopyCall w.d] := by
  rw [update_eq]
  cases env.copySavedObjects w.calls (specCopyCall w.d).parameter (specCopyCall w.d).sourceSpace
  · simp [read_calls]
  · rfl

theorem readData_idem (env : Provider) (d : ResourceData) :
    readData env (readData env d) = readData env d := by
  simp [readData, NewSet_idem]

theorem readData_of_WF (env : Provider) (d : ResourceData)
    (hts : SchemaSet.WF env.hashString d.target_spaces)
    (hob : SchemaSet.WF env.hashResource d.object) :
    readData env d = { d with name := d.id, force_update := false } := by
  simp [readData, NewSet_List_of_WF _ _ hts, NewSet_List_of_WF _ _ hob]

theorem read_ok_eq (env : Provider) (w : World)
    (h : (resourceKibanaCopyObjectRead env w).2 = []) :
    resourceKibanaCopyObjectRead env w = ({ w with d := readData env w.d }, []) :=
  read_of_writes_ok env w (writes_ok_of_read_ok env w h)

theorem read_read (env : Provider) (w : World)
    (h : (resourceKibanaCopyObjectRead env w).2 = []) :
    resourceKibanaCopyObjectRead env (resourceKibanaCopyObjectRead env w).1 =
      ((resourceKibanaCopyObjectRead env w).1, []) := by
  have hw := writes_ok_of_read_ok env w h
  rw [read_of_writes_ok env w hw, read_of_writes_ok env _ hw]
  simp [readData_idem]

theorem readData_eq_prefix (env : Provider) (d : ResourceData) :
    readData env d = readPrefixData env d 8 := by
  simp [readData, readPrefixData]

theorem read_shape (env : Provider) :
    ∃ (n : Nat) (dg : Diagnostics), ∀ w : World,
      resourceKibanaCopyObjectRead env w = ({ w with d := readPrefixData env w.d n }, dg) := by
  rcases first_fail env.setErr readKeys with hall | ⟨i, k, e, hk, hpre, he⟩
  · exact ⟨8, [], fun w => by rw [read_of_writes_ok env w hall, readData_eq_prefix]⟩
  · exact ⟨i, diagFromErr e, fun w => read_fail_at env w i k e hk hpre he⟩

theorem create_ok (env : Provider) (w : World)
    (h : (resourceKibanaCopyObjectCreate env w).2 = []) :
    resourceKibanaCopyObjectCreate env w =
      resourceKibanaCopyObjectRead env
        { d := { w.d with id := w.d.name }, calls := w.calls ++ [specCopyCall w.d] } := by
  rw [create_eq] at h ⊢
  cases hc : env.copySavedObjects w.calls (specCopyCall w.d).parameter
      (specCopyCall w.d).sourceSpace with
  | none => rfl
  | some e => rw [hc] at h; simp [diagFromErr] at h

theorem update_ok (env : Provider) (w : World)
    (h : (resourceKibanaCopyObjectUpdate env w).2 = []) :
    resourceKibanaCopyObjectUpdate env w =
      resourceKibanaCopyObjectRead env
        { d := w.d, calls := w.calls ++ [specCopyCall w.d] } := by
  rw [update_eq] at h ⊢
  cases hc : env.copySavedObjects w.calls (specCopyCall w.d).parameter
      (specCopyCall w.d).sourceSpace with
  | none => rfl
  | some e => rw [hc] at h; simp [diagFromErr] at h

theorem read_ok_name (env : Provider) (w : World)
    (h : (resourceKibanaCopyObjectRead env w).2 = []) :
    (resourceKibanaCopyObjectRead env w).1.d.name = w.d.id ∧
      (resourceKibanaCopyObjectRead env w).1.d.id = w.d.id := by
  rw [read_ok_eq env w h]
  exact ⟨rfl, rfl⟩

theorem read_keeps_two_states (env : Provider) (w : World) (h : absent w.d ∨ tracked w.d) :
    absent (resourceKibanaCopyObjectRead env w).1.d ∨
      tracked (resourceKibanaCopyObjectRead env w).1.d := by
  obtain ⟨n, dg, hn⟩ := read_shape env
  rw [hn w]
  rcases h with h | h
  · exact Or.inl (by simpa [absent, readPrefixData] using h)
  · refine Or.inr ⟨by simpa [readPrefixData] using h.1, ?_⟩
    have := h.2
    by_cases h1 : 1 ≤ n <;> simp [readPrefixData, h1, this]

theorem read_same_name_id (env : Provider) (w : World) (h : w.d.id = w.d.name) :
    (resourceKibanaCopyObjectRead env w).1.d.id = w.d.id ∧
      (resourceKibanaCopyObjectRead env w).1.d.name = w.d.id := by
  obtain ⟨n, dg, hn⟩ := read_shape env
  rw [hn w]
  by_cases h1 : 1 ≤ n <;> simp [readPrefixData, h1, h]

theorem runOps_take (ops : List Op) (w w2 : World) (h : runOps ops w = some w2) (n : Nat) :
    ∃ wn, runOps (ops.take n) w = some wn := by
  induction ops generalizing w n with
  | nil => exact ⟨w, by simp [runOps]⟩
  | cons op ops ih =>
    cases n with
    | zero => exact ⟨w, by simp [runOps]⟩
    | succ n =>
      simp only [List.take_succ_cons, runOps] at h ⊢
      rcases hr : op.run w with ⟨w1, dg⟩
      rw [hr] at h
      cases dg with
      | nil => exact ih w1 h n
      | cons a t => simp at h

theorem run_keeps_name (op : Op) (w : World) (nm : String)
    (hw : w.d.name = nm ∧ w.d.id = nm) (h : (op.run w).2 = []) :
    (op.run w).1.d.name = nm ∧ (op.run w).1.d.id = nm := by
  cases op with
  | read env =>
    have := read_ok_name env w h
    simp only [Op.run] at h ⊢
    rw [this.1, this.2]
    exact ⟨hw.2, hw.2⟩
  | update env cfg =>
    simp only [Op.run] at h ⊢
    have hu := update_ok env _ h
    rw [hu] at h
    have := read_ok_name env _ h
    rw [hu, this.1, this.2]
    exact ⟨hw.2, hw.2⟩

theorem runOps_keeps_name (ops : List Op) (w w2 : World) (nm : String)
    (hw : w.d.name = nm ∧ w.d.id = nm) (h : runOps ops w = some w2) :
    w2.d.name = nm ∧ w2.d.id = nm := by
  induction ops generalizing w with
  | nil =>
    simp only [runOps, Option.some.injEq] at h
    rw [← h]; exact hw
  | cons op ops ih =>
    simp only [runOps] at h
    rcases hr : op.run w with ⟨w1, dg⟩
    rw [hr] at h
    cases dg with
    | nil =>
      have := run_keeps_name op w nm hw (by rw [hr])
      rw [hr] at this
      exact ih w1 this h
    | cons a t => simp at h

/-! ## The claims -/

/-- C1: the single `CopySavedObjects` call that create and update each issue is
made with the source space of the configuration and with the target spaces as
listed, the three flags, and one object parameter per configured object, at the
same index, carrying that object's id as `ID` and its type as `Type`. -/
theorem create_update_call_parameters (env : Provider) (w : World) :
    (resourceKibanaCopyObjectCreate env w).1.calls = w.calls ++ [specCopyCall w.d] ∧
    (resourceKibanaCopyObjectUpdate env w).1.calls = w.calls ++ [specCopyCall w.d] ∧
    (specCopyCall w.d).sourceSpace = w.d.source_space ∧
    (specCopyCall w.d).parameter.Spaces = w.d.target_spaces.List ∧
    (specCopyCall w.d).parameter.IncludeReferences = w.d.include_reference ∧
    (specCopyCall w.d).parameter.Overwrite = w.d.overwrite ∧
    (specCopyCall w.d).parameter.CreateNewCopies = w.d.create_new_copies ∧
    (specCopyCall w.d).parameter.Objects.length = w.d.object.List.length ∧
    ∀ i : Nat,
      ((specCopyCall w.d).parameter.Objects[i]?).map (fun o => o.ID)
          = (w.d.object.List[i]?).map (fun o => o.id) ∧
      ((specCopyCall w.d).parameter.Objects[i]?).map (fun o => o.Type_)
          = (w.d.object.List[i]?).map (fun o => o.type) := by
  refine ⟨create_calls env w, update_calls env w, rfl, rfl, rfl, rfl, rfl, ?_, ?_⟩
  · simp [specCopyCall]
  · intro i
    simp [specCopyCall, List.getElem?_map, Option.map_map, Function.comp_def]

/-- C1, the scenario: for `copy-dash` create issues exactly the call
`Spaces = [staging]`, `Objects = [(abc123, dashboard)]`, references included, no
overwrite, new copies, from the source space `default`. -/
theorem create_update_call_parameters_witness :
    (resourceKibanaCopyObjectCreate okProvider copyDashWorld).1.calls =
      [⟨⟨["staging"], [⟨"abc123", "dashboard"⟩], true, false, true⟩, "default"⟩] :=
  (create_update_call_parameters okProvider copyDashWorld).1

/-- C3: when the `CopySavedObjects` call returns an error, create and update
each return exactly that error and leave the resource data as it was: the
identifier is not set or changed, no field is written, `force_update` keeps its
value. -/
theorem remote_error_is_surfaced (env : Provider) (w : World) (e : String)
    (h : env.copySavedObjects w.calls (specCopyCall w.d).parameter
      (specCopyCall w.d).sourceSpace = some e) :
    (resourceKibanaCopyObjectCreate env w).2 = diagFromErr e ∧
    (resourceKibanaCopyObjectCreate env w).1.d = w.d ∧
    (resourceKibanaCopyObjectCreate env w).1.d.id = w.d.id ∧
    (resourceKibanaCopyObjectCreate env w).1.d.force_update = w.d.force_update ∧
    (resourceKibanaCopyObjectUpdate env w).2 = diagFromErr e ∧
    (resourceKibanaCopyObjectUpdate env w).1.d = w.d ∧
    (resourceKibanaCopyObjectUpdate env w).1.d.id = w.d.id ∧
    (resourceKibanaCopyObjectUpdate env w).1.d.force_update = w.d.force_update := by
  rw [create_eq, update_eq, h]
  exact ⟨rfl, rfl, rfl, rfl, rfl, rfl, rfl, rfl⟩

/-- C3 at a network error: create on the untracked scenario returns the error
and leaves the identifier absent; update on the tracked one keeps
`force_update` raised. -/
theorem remote_error_is_surfaced_witness :
    ((resourceKibanaCopyObjectCreate downProvider copyDashWorld).2 = [⟨"network error"⟩] ∧
      (resourceKibanaCopyObjectCreate downProvider copyDashWorld).1.d.id = "") ∧
    ((resourceKibanaCopyObjectUpdate downProvider copyDashTracked).2 = [⟨"network error"⟩] ∧
      (resourceKibanaCopyObjectUpdate downProvider copyDashTracked).1.d.force_update = true) :=
  ⟨⟨(remote_error_is_surfaced downProvider copyDashWorld "network error" rfl).1,
     (remote_error_is_surfaced downProvider copyDashWorld "network error" rfl).2.2.1⟩,
   ⟨(remote_error_is_surfaced downProvider copyDashTracked "network error" rfl).2.2.2.2.1,
     (remote_error_is_surfaced downProvider copyDashTracked "network error" rfl).2.2.2.2.2.2.2⟩⟩

/-- C4: delete returns no diagnostics, leaves the identifier empty, and changes
neither another field of the resource data nor the call log, whatever the prior
state and whatever the remote client would answer. -/
theorem delete_clears_identifier_only (env : Provider) (w : World) :
    (resourceKibanaCopyObjectDelete env w).2 = [] ∧
    (resourceKibanaCopyObjectDelete env w).1.d.id = "" ∧
    (resourceKibanaCopyObjectDelete env w).1.d = { w.d with id := "" } ∧
    (resourceKibanaCopyObjectDelete env w).1.d.name = w.d.name ∧
    (resourceKibanaCopyObjectDelete env w).1.d.source_space = w.d.source_space ∧
    (resourceKibanaCopyObjectDelete env w).1.d.target_spaces = w.d.target_spaces ∧
    (resourceKibanaCopyObjectDelete env w).1.d.object = w.d.object ∧
    (resourceKibanaCopyObjectDelete env w).1.d.include_reference = w.d.include_reference ∧
    (resourceKibanaCopyObjectDelete env w).1.d.overwrite = w.d.overwrite ∧
    (resourceKibanaCopyObjectDelete env w).1.d.create_new_copies = w.d.create_new_copies ∧
    (resourceKibanaCopyObjectDelete env w).1.d.force_update = w.d.force_update ∧
    (resourceKibanaCopyObjectDelete env w).1.calls = w.calls :=
  ⟨rfl, rfl, rfl, rfl, rfl, rfl, rfl, rfl, rfl, rfl, rfl, rfl⟩

/-- C4, the scenario: delete on the identifier `copy-dash` gives the empty
identifier and makes no call, also when the remote client is unreachable. -/
theorem delete_clears_identifier_only_witness :
    (resourceKibanaCopyObjectDelete downProvider copyDashTracked).1.d.id = "" ∧
    (resourceKibanaCopyObjectDelete downProvider copyDashTracked).1.calls = [] ∧
    copyDashTracked.d.id = "copy-dash" :=
  ⟨(delete_clears_identifier_only downProvider copyDashTracked).2.1,
   (delete_clears_identifier_only downProvider copyDashTracked).2.2.2.2.2.2.2.2.2.2.2, rfl⟩

/-- C5: on the call log, every create and every update appends exactly one
call, whether or not the call or a later state write fails and whether or not
the configuration changed; every read and every delete appends none. -/
theorem calls_per_invocation (env : Provider) (w : World) :
    (∃ c, (resourceKibanaCopyObjectCreate env w).1.calls = w.calls ++ [c]) ∧
    (resourceKibanaCopyObjectCreate env w).1.calls.length = w.calls.length + 1 ∧
    (∃ c, (resourceKibanaCopyObjectUpdate env w).1.calls = w.calls ++ [c]) ∧
    (resourceKibanaCopyObjectUpdate env w).1.calls.length = w.calls.length + 1 ∧
    (resourceKibanaCopyObjectRead env w).1.calls = w.calls ∧
    (resourceKibanaCopyObjectDelete env w).1.calls = w.calls := by
  refine ⟨⟨_, create_calls env w⟩, ?_, ⟨_, update_calls env w⟩, ?_, read_calls env w, rfl⟩
  · simp [create_calls]
  · simp [update_calls]

/-- C2: for a configuration whose sets are well formed, when the remote call
and every state write go through, create returns no diagnostics and the state
after create followed by read has the identifier and the name equal to the
configured name, the same source space, the same target spaces (as a set, hence
with the same members, whatever hash function orders the listing), the same
objects, the same three flags, and `force_update` false whatever it was. -/
theorem create_then_read_roundtrip (env : Provider) (w : World)
    (hts : SchemaSet.WF env.hashString w.d.target_spaces)
    (hob : SchemaSet.WF env.hashResource w.d.object)
    (hcall : env.copySavedObjects w.calls (specCopyCall w.d).parameter
      (specCopyCall w.d).sourceSpace = none)
    (hw : ∀ k ∈ readKeys, env.setErr k = none) :
    (resourceKibanaCopyObjectCreate env w).2 = [] ∧
    (createThenRead env w).2 = [] ∧
    (createThenRead env w).1.d.id = w.d.name ∧
    (createThenRead env w).1.d.name = w.d.name ∧
    (createThenRead env w).1.d.source_space = w.d.source_space ∧
    (createThenRead env w).1.d.target_spaces = w.d.target_spaces ∧
    (∀ x, x ∈ (createThenRead env w).1.d.target_spaces.List ↔ x ∈ w.d.target_spaces.List) ∧
    (createThenRead env w).1.d.object = w.d.object ∧
    (createThenRead env w).1.d.object.List = w.d.object.List ∧
    (createThenRead env w).1.d.include_reference = w.d.include_reference ∧
    (createThenRead env w).1.d.overwrite = w.d.overwrite ∧
    (createThenRead env w).1.d.create_new_copies = w.d.create_new_copies ∧
    (createThenRead env w).1.d.force_update = false ∧
    (resourceKibanaCopyObjectCreate env w).1.d = (createThenRead env w).1.d := by
  have hc : resourceKibanaCopyObjectCreate env w =
      ({ d := { w.d with id := w.d.name, force_update := false },
         calls := w.calls ++ [specCopyCall w.d] }, []) := by
    rw [create_eq, hcall]
    simp only []
    rw [read_of_writes_ok env _ hw]
    simpa using readData_of_WF env { w.d with id := w.d.name } hts hob
  have hr : createThenRead env w =
      ({ d := { w.d with id := w.d.name, force_update := false },
         calls := w.calls ++ [specCopyCall w.d] }, []) := by
    unfold createThenRead
    rw [hc, read_of_writes_ok env _ hw]
    simpa using readData_of_WF env { w.d with id := w.d.name, force_update := false } hts hob
  rw [hc, hr]
  simp

/-- C2 on the scenario, entered with `force_update` raised: after create
followed by read the identifier is `copy-dash`, the target spaces and the
object are those configured, and `force_update` is false. -/
theorem create_then_read_roundtrip_witness :
    (createThenRead okProvider ⟨{ copyDash with force_update := true }, []⟩).1.d.id = "copy-dash" ∧
    (createThenRead okProvider ⟨{ copyDash with force_update := true }, []⟩).1.d.target_spaces.List
      = ["staging"] ∧
    (createThenRead okProvider ⟨{ copyDash with force_update := true }, []⟩).1.d.object.List
      = [⟨"abc123", "dashboard"⟩] ∧
    (createThenRead okProvider ⟨{ copyDash with force_update := true }, []⟩).1.d.force_update
      = false :=
  have h := create_then_read_roundtrip okProvider ⟨{ copyDash with force_update := true }, []⟩
    (by simp [SchemaSet.WF, copyDash, okProvider]; rfl)
    (by simp [SchemaSet.WF, copyDash, okProvider]; rfl)
    rfl (fun _ _ => rfl)
  ⟨h.2.2.1, by rw [h.2.2.2.2.2.1]; rfl, h.2.2.2.2.2.2.2.2.1, h.2.2.2.2.2.2.2.2.2.2.2.2.1⟩

/-- C6, as stated, fails: with an empty configured name a create that returns
no diagnostics starts in the absent state and ends with an empty identifier,
which is not the tracked state. -/
theorem create_empty_name_not_tracked :
    absent emptyNameWorld.d ∧
    (resourceKibanaCopyObjectCreate okProvider emptyNameWorld).2 = [] ∧
    (resourceKibanaCopyObjectCreate okProvider emptyNameWorld).1.d.id = "" ∧
    ¬ tracked (resourceKibanaCopyObjectCreate okProvider emptyNameWorld).1.d :=
  ⟨rfl, rfl, rfl, fun h => h.1 rfl⟩

/-- C6, amended: for every configuration with a non-empty name a successful
create from absent ends in tracked, under the configured name; from a tracked
state a successful update or read ends in tracked with the same identifier;
delete ends in absent; and from absent or tracked every hook, successful or
not, ends in absent or tracked. -/
theorem lifecycle_two_states (env : Provider) (w : World) :
    (absent w.d → w.d.name ≠ "" → (resourceKibanaCopyObjectCreate env w).2 = [] →
      tracked (resourceKibanaCopyObjectCreate env w).1.d ∧
        (resourceKibanaCopyObjectCreate env w).1.d.id = w.d.name) ∧
    (tracked w.d → (resourceKibanaCopyObjectUpdate env w).2 = [] →
      tracked (resourceKibanaCopyObjectUpdate env w).1.d ∧
        (resourceKibanaCopyObjectUpdate env w).1.d.id = w.d.id) ∧
    (tracked w.d → (resourceKibanaCopyObjectRead env w).2 = [] →
      tracked (resourceKibanaCopyObjectRead env w).1.d ∧
        (resourceKibanaCopyObjectRead env w).1.d.id = w.d.id) ∧
    absent (resourceKibanaCopyObjectDelete env w).1.d ∧
    (absent w.d ∨ tracked w.d →
      (absent (resourceKibanaCopyObjectCreate env w).1.d ∨
        tracked (resourceKibanaCopyObjectCreate env w).1.d) ∧
      (absent (resourceKibanaCopyObjectUpdate env w).1.d ∨
        tracked (resourceKibanaCopyObjectUpdate env w).1.d) ∧
      (absent (resourceKibanaCopyObjectRead env w).1.d ∨
        tracked (resourceKibanaCopyObjectRead env w).1.d) ∧
      (absent (resourceKibanaCopyObjectDelete env w).1.d ∨
        tracked (resourceKibanaCopyObjectDelete env w).1.d)) := by
  refine ⟨?_, ?_, ?_, rfl, ?_⟩
  · intro _ hne hok
    have hc := create_ok env w hok
    rw [hc] at hok
    have hn := read_ok_name env _ hok
    rw [hc]
    exact ⟨⟨by rw [hn.2]; exact hne, by rw [hn.1, hn.2]⟩, hn.2⟩
  · intro ht hok
    have hu := update_ok env w hok
    rw [hu] at hok
    have hn := read_ok_name env _ hok
    rw [hu]
    exact ⟨⟨by rw [hn.2]; exact ht.1, by rw [hn.1, hn.2]⟩, hn.2⟩
  · intro ht hok
    have hn := read_ok_name env w hok
    exact ⟨⟨by rw [hn.2]; exact ht.1, by rw [hn.1, hn.2]⟩, hn.2⟩
  · intro h
    refine ⟨?_, ?_, read_keeps_two_states env w h, Or.inl rfl⟩
    · rw [create_eq]
      cases env.copySavedObjects w.calls (specCopyCall w.d).parameter
        (specCopyCall w.d).sourceSpace with
      | some e => exact h
      | none =>
        have hs := read_same_name_id env
          { d := { w.d with id := w.d.name }, calls := w.calls ++ [specCopyCall w.d] } rfl
        by_cases hn : w.d.name = ""
        · exact Or.inl (by rw [absent, hs.1]; exact hn)
        · exact Or.inr ⟨by rw [hs.1]; exact hn, by rw [hs.1, hs.2]⟩
    · rw [update_eq]
      cases env.copySavedObjects w.calls (specCopyCall w.d).parameter
        (specCopyCall w.d).sourceSpace with
      | some e => exact h
      | none =>
        exact read_keeps_two_states env { d := w.d, calls := w.calls ++ [specCopyCall w.d] } h

/-- C6 on the scenario: create from absent ends in tracked under `copy-dash`;
update and read of the tracked scenario end in tracked under the same
identifier; every hook on the absent scenario ends in absent or tracked. -/
theorem lifecycle_two_states_witness :
    (tracked (resourceKibanaCopyObjectCreate okProvider copyDashWorld).1.d ∧
      (resourceKibanaCopyObjectCreate okProvider copyDashWorld).1.d.id = "copy-dash") ∧
    (tracked (resourceKibanaCopyObjectUpdate okProvider copyDashTracked).1.d ∧
      (resourceKibanaCopyObjectUpdate okProvider copyDashTracked).1.d.id = "copy-dash") ∧
    (tracked (resourceKibanaCopyObjectRead okProvider copyDashTracked).1.d ∧
      (resourceKibanaCopyObjectRead okProvider copyDashTracked).1.d.id = "copy-dash") ∧
    (absent (resourceKibanaCopyObjectUpdate okProvider copyDashWorld).1.d ∨
      tracked (resourceKibanaCopyObjectUpdate okProvider copyDashWorld).1.d) :=
  ⟨(lifecycle_two_states okProvider copyDashWorld).1 rfl (by decide) rfl,
   (lifecycle_two_states okProvider copyDashTracked).2.1 ⟨by decide, rfl⟩ rfl,
   (lifecycle_two_states okProvider copyDashTracked).2.2.1 ⟨by decide, rfl⟩ rfl,
   ((lifecycle_two_states okProvider copyDashWorld).2.2.2.2 (Or.inl rfl)).2.1⟩

/-- C7: after a create that returns no diagnostics, along every sequence of
reads and updates that each return no diagnostics (an update may carry any
configuration, another name included), the stored name after each step is the
name given to create and is the tracking identifier. -/
theorem name_never_recomputed (env : Provider) (w : World) (ops : List Op) (w2 : World)
    (hc : (resourceKibanaCopyObjectCreate env w).2 = [])
    (hr : runOps ops (resourceKibanaCopyObjectCreate env w).1 = some w2) :
    (w2.d.name = w.d.name ∧ w2.d.id = w.d.name) ∧
    ∀ n : Nat, ∃ wn, runOps (ops.take n) (resourceKibanaCopyObjectCreate env w).1 = some wn ∧
      wn.d.name = w.d.name ∧ wn.d.id = w.d.name := by
  have h0 : (resourceKibanaCopyObjectCreate env w).1.d.name = w.d.name ∧
      (resourceKibanaCopyObjectCreate env w).1.d.id = w.d.name := by
    have hcr := create_ok env w hc
    rw [hcr] at hc
    have hn := read_ok_name env _ hc
    rw [hcr]
    exact hn
  refine ⟨runOps_keeps_name ops _ w2 _ h0 hr, fun n => ?_⟩
  obtain ⟨wn, hwn⟩ := runOps_take ops _ w2 hr n
  exact ⟨wn, hwn, runOps_keeps_name (ops.take n) _ wn _ h0 hwn⟩

/-- C7 on the scenario: after create, a read, an update that carries the name
`renamed` and a read all go through, and the stored name and the identifier are
still `copy-dash`; so they are after the first two steps. -/
theorem name_never_recomputed_witness :
    (∃ w2, runOps copyDashOps (resourceKibanaCopyObjectCreate okProvider copyDashWorld).1
        = some w2 ∧ w2.d.name = "copy-dash" ∧ w2.d.id = "copy-dash") ∧
    (∃ wn, runOps (copyDashOps.take 2) (resourceKibanaCopyObjectCreate okProvider copyDashWorld).1
        = some wn ∧ wn.d.name = "copy-dash" ∧ wn.d.id = "copy-dash") :=
  ⟨⟨_, rfl, (name_never_recomputed okProvider copyDashWorld copyDashOps _ rfl rfl).1⟩,
   (name_never_recomputed okProvider copyDashWorld copyDashOps _ rfl rfl).2 2⟩

/-- C8, as stated, fails: under the identifier `old-id` and the configured name
`copy-dash`, update and create both go through, but update ends with the
identifier and the name `old-id` while create ends with `copy-dash`. -/
theorem update_differs_from_create :
    (resourceKibanaCopyObjectUpdate okProvider otherIdWorld).2 = [] ∧
    (resourceKibanaCopyObjectCreate okProvider otherIdWorld).2 = [] ∧
    (resourceKibanaCopyObjectUpdate okProvider otherIdWorld).1.d.id = "old-id" ∧
    (resourceKibanaCopyObjectUpdate okProvider otherIdWorld).1.d.name = "old-id" ∧
    (resourceKibanaCopyObjectCreate okProvider otherIdWorld).1.d.id = "copy-dash" ∧
    (resourceKibanaCopyObjectCreate okProvider otherIdWorld).1.d.name = "copy-dash" ∧
    resourceKibanaCopyObjectUpdate okProvider otherIdWorld ≠
      resourceKibanaCopyObjectCreate okProvider otherIdWorld :=
  ⟨rfl, rfl, rfl, rfl, rfl, rfl, by decide⟩

/-- C8, amended: for every identifier, configuration and remote behaviour,
update issues the same call and returns the same diagnostics as create, and
leaves the same value in every field other than the identifier and the name;
when the identifier equals the configured name the two results are the same
altogether. -/
theorem update_same_effect_as_create (env : Provider) (w : World) :
    (resourceKibanaCopyObjectUpdate env w).1.calls =
      (resourceKibanaCopyObjectCreate env w).1.calls ∧
    (resourceKibanaCopyObjectUpdate env w).2 = (resourceKibanaCopyObjectCreate env w).2 ∧
    (resourceKibanaCopyObjectUpdate env w).1.d.source_space =
      (resourceKibanaCopyObjectCreate env w).1.d.source_space ∧
    (resourceKibanaCopyObjectUpdate env w).1.d.target_spaces =
      (resourceKibanaCopyObjectCreate env w).1.d.target_spaces ∧
    (resourceKibanaCopyObjectUpdate env w).1.d.object =
      (resourceKibanaCopyObjectCreate env w).1.d.object ∧
    (resourceKibanaCopyObjectUpdate env w).1.d.include_reference =
      (resourceKibanaCopyObjectCreate env w).1.d.include_reference ∧
    (resourceKibanaCopyObjectUpdate env w).1.d.overwrite =
      (resourceKibanaCopyObjectCreate env w).1.d.overwrite ∧
    (resourceKibanaCopyObjectUpdate env w).1.d.create_new_copies =
      (resourceKibanaCopyObjectCreate env w).1.d.create_new_copies ∧
    (resourceKibanaCopyObjectUpdate env w).1.d.force_update =
      (resourceKibanaCopyObjectCreate env w).1.d.force_update ∧
    (w.d.id = w.d.name →
      resourceKibanaCopyObjectUpdate env w = resourceKibanaCopyObjectCreate env w) := by
  obtain ⟨n, dg, hn⟩ := read_shape env
  rw [update_eq, create_eq]
  cases env.copySavedObjects w.calls (specCopyCall w.d).parameter
    (specCopyCall w.d).sourceSpace with
  | some e => exact ⟨rfl, rfl, rfl, rfl, rfl, rfl, rfl, rfl, rfl, fun _ => rfl⟩
  | none =>
    dsimp only
    rw [hn { d := w.d, calls := w.calls ++ [specCopyCall w.d] },
      hn { d := { w.d with id := w.d.name }, calls := w.calls ++ [specCopyCall w.d] }]
    refine ⟨rfl, rfl, rfl, rfl, rfl, rfl, rfl, rfl, rfl, fun h => ?_⟩
    obtain ⟨d, calls⟩ := w
    obtain ⟨id, name, ss, ts, ob, ir, ov, cn, fu⟩ := d
    simp only at h
    subst h
    rfl

/-- C8 on the tracked scenario, whose identifier is the configured name: update
and create return the same result; and under the identifier `old-id` they still
issue the same call. -/
theorem update_same_effect_as_create_witness :
    copyDashTracked.d.id = copyDashTracked.d.name ∧
    resourceKibanaCopyObjectUpdate okProvider copyDashTracked =
      resourceKibanaCopyObjectCreate okProvider copyDashTracked ∧
    (resourceKibanaCopyObjectUpdate okProvider otherIdWorld).1.calls =
      (resourceKibanaCopyObjectCreate okProvider otherIdWorld).1.calls :=
  ⟨rfl, (update_same_effect_as_create okProvider copyDashTracked).2.2.2.2.2.2.2.2.2 rfl,
   (update_same_effect_as_create okProvider otherIdWorld).1⟩

/-- C9: when read returns no diagnostics, `force_update` is false in the state
it returns whatever it was before, and a second read returns that same state
and no diagnostics; the state returned by a create or an update that returns no
diagnostics is such a fixed point of read. -/
theorem read_converges (env : Provider) (w : World) :
    ((resourceKibanaCopyObjectRead env w).2 = [] →
      (resourceKibanaCopyObjectRead env w).1.d.force_update = false ∧
      resourceKibanaCopyObjectRead env (resourceKibanaCopyObjectRead env w).1 =
        ((resourceKibanaCopyObjectRead env w).1, [])) ∧
    ((resourceKibanaCopyObjectCreate env w).2 = [] →
      resourceKibanaCopyObjectRead env (resourceKibanaCopyObjectCreate env w).1 =
        ((resourceKibanaCopyObjectCreate env w).1, [])) ∧
    ((resourceKibanaCopyObjectUpdate env w).2 = [] →
      resourceKibanaCopyObjectRead env (resourceKibanaCopyObjectUpdate env w).1 =
        ((resourceKibanaCopyObjectUpdate env w).1, [])) := by
  refine ⟨fun h => ⟨?_, read_read env w h⟩, fun h => ?_, fun h => ?_⟩
  · rw [read_ok_eq env w h]
    rfl
  · have hc := create_ok env w h
    rw [hc] at h ⊢
    exact read_read env _ h
  · have hu := update_ok env w h
    rw [hu] at h ⊢
    exact read_read env _ h

/-- C9 on the tracked scenario with `force_update` raised: read goes through,
lowers the flag, and reading again changes nothing; the states create and
update return are fixed points of read. -/
theorem read_converges_witness :
    copyDashTracked.d.force_update = true ∧
    ((resourceKibanaCopyObjectRead okProvider copyDashTracked).1.d.force_update = false ∧
      resourceKibanaCopyObjectRead okProvider
          (resourceKibanaCopyObjectRead okProvider copyDashTracked).1 =
        ((resourceKibanaCopyObjectRead okProvider copyDashTracked).1, [])) ∧
    resourceKibanaCopyObjectRead okProvider
        (resourceKibanaCopyObjectCreate okProvider copyDashWorld).1 =
      ((resourceKibanaCopyObjectCreate okProvider copyDashWorld).1, []) ∧
    resourceKibanaCopyObjectRead okProvider
        (resourceKibanaCopyObjectUpdate okProvider copyDashTracked).1 =
      ((resourceKibanaCopyObjectUpdate okProvider copyDashTracked).1, []) :=
  ⟨rfl, (read_converges okProvider copyDashTracked).1 rfl,
   (read_converges okProvider copyDashWorld).2.1 rfl,
   (read_converges okProvider copyDashTracked).2.2 rfl⟩

/-- C10: read returns diagnostics exactly when one of its eight writes fails;
then they are the error of the first failing write in the order name,
source_space, target_spaces, object, include_reference, overwrite,
create_new_copies, force_update, the fields before it are written, and the
failing field and every later one hold the value they had; when every write
goes through read returns no diagnostics. -/
theorem read_error_is_first_failing_write (env : Provider) (w : World) :
    ((resourceKibanaCopyObjectRead env w).2 ≠ [] ↔
      ∃ k ∈ readKeys, ∃ e, env.setErr k = some e) ∧
    ((∀ k ∈ readKeys, env.setErr k = none) → (resourceKibanaCopyObjectRead env w).2 = []) ∧
    (∀ (i : Nat) (k e : String), readKeys[i]? = some k →
      (∀ j ∈ readKeys.take i, env.setErr j = none) → env.setErr k = some e →
        (resourceKibanaCopyObjectRead env w).2 = diagFromErr e ∧
        (∀ j ∈ readKeys.take i,
          (resourceKibanaCopyObjectRead env w).1.d.Get j = (readData env w.d).Get j) ∧
        (∀ j ∈ readKeys.drop i,
          (resourceKibanaCopyObjectRead env w).1.d.Get j = w.d.Get j) ∧
        (resourceKibanaCopyObjectRead env w).1.d.id = w.d.id) := by
  refine ⟨⟨fun h => ?_, fun h => ?_⟩, fun h => ?_, fun i k e hk hpre he => ?_⟩
  · rcases first_fail env.setErr readKeys with hall | ⟨i, k, e, hk, _, he⟩
    · rw [read_of_writes_ok env w hall] at h
      exact absurd rfl h
    · exact ⟨k, List.getElem?_mem hk, e, he⟩
  · obtain ⟨k, hk, e, he⟩ := h
    intro hok
    have := writes_ok_of_read_ok env w hok k hk
    rw [he] at this
    exact absurd this (by simp)
  · rw [read_of_writes_ok env w h]
  · have hi : i < 8 := by
      by_contra hcon
      have : readKeys[i]? = none := List.getElem?_eq_none (by simp [readKeys]; omega)
      simp [this] at hk
    rw [read_fail_at env w i k e hk hpre he]
    refine ⟨rfl, fun j hj => ?_, fun j hj => ?_, rfl⟩
    · have hj2 : j ∈ readKeys := List.mem_of_mem_take hj
      simp only [readKeys, List.mem_cons, List.mem_singleton, List.not_mem_nil, or_false] at hj2
      interval_cases i <;> rcases hj2 with rfl | rfl | rfl | rfl | rfl | rfl | rfl | rfl <;>
        simp [readKeys] at hj <;> simp [ResourceData.Get, readPrefixData, readData]
    · have hj2 : j ∈ readKeys := List.mem_of_mem_drop hj
      simp only [readKeys, List.mem_cons, List.mem_singleton, List.not_mem_nil, or_false] at hj2
      interval_cases i <;> rcases hj2 with rfl | rfl | rfl | rfl | rfl | rfl | rfl | rfl <;>
        simp [readKeys] at hj <;> simp [ResourceData.Get, readPrefixData]

/-- C10 where the write of `target_spaces` fails: read returns that error, the
name is written from the identifier, and `force_update` is left raised. -/
theorem read_error_is_first_failing_write_witness :
    (resourceKibanaCopyObjectRead writeFailProvider copyDashTracked).2 = [⟨"write failed"⟩] ∧
    (resourceKibanaCopyObjectRead writeFailProvider copyDashTracked).1.d.Get "force_update"
      = .bool true ∧
    (resourceKibanaCopyObjectRead okProvider copyDashTracked).2 = [] :=
  ⟨((read_error_is_first_failing_write writeFailProvider copyDashTracked).2.2
      2 "target_spaces" "write failed" rfl (by decide) rfl).1,
   ((read_error_is_first_failing_write writeFailProvider copyDashTracked).2.2
      2 "target_spaces" "write failed" rfl (by decide) rfl).2.2.1 "force_update" (by decide),
   (read_error_is_first_failing_write okProvider copyDashTracked).2.1 (fun _ _ => rfl)⟩

end Kb
